import Mathlib

/-!
Shallow embedding of the pyfiberamp steady-state solver core, covering
`fiberamp/initial_guess_maker.py` (InitialGuessMaker) and
`fiberamp/fibers/active_fiber.py` (ActiveFiber).  Machine floats are
modelled by real numbers; numpy arrays by lists; Python exceptions by
`Except`; a Python function that can return `None` by `Option`.
Helpers from `fiberamp/helper_funcs.py` (a module the repository imports
but whose file is not available) are modelled from the spec and marked so
in their doc comments.
-/

noncomputable section

namespace Fiberamp

/-- A contiguous half-open index range (`start ≤ i < start + len`) into the
flattened channel vector, the Lean counterpart of a Python `slice`. -/
structure ChannelSlice where
  start : ℕ
  len : ℕ

/-- Modelled from the spec: the category→slice mapping produced by
`Channels.get_slices` (the `Channels` class is not under src/).  The spec
fixes the keys; `InitialGuessMaker.__init__` reads exactly these seven. -/
structure SliceMap where
  signal_slice : ChannelSlice
  co_pump_slice : ChannelSlice
  counter_pump_slice : ChannelSlice
  forward_ase_slice : ChannelSlice
  backward_ase_slice : ChannelSlice
  forward_raman_slice : ChannelSlice
  backward_raman_slice : ChannelSlice

/-- Modelled from the spec: the slices are contiguous, non-overlapping, in the
fixed category order, and their union is exactly `[0, n)`. -/
def SliceMap.partitions (sl : SliceMap) (n : ℕ) : Prop :=
  sl.signal_slice.start = 0 ∧
  sl.co_pump_slice.start = sl.signal_slice.start + sl.signal_slice.len ∧
  sl.counter_pump_slice.start = sl.co_pump_slice.start + sl.co_pump_slice.len ∧
  sl.forward_ase_slice.start = sl.counter_pump_slice.start + sl.counter_pump_slice.len ∧
  sl.backward_ase_slice.start = sl.forward_ase_slice.start + sl.forward_ase_slice.len ∧
  sl.forward_raman_slice.start = sl.backward_ase_slice.start + sl.backward_ase_slice.len ∧
  sl.backward_raman_slice.start = sl.forward_raman_slice.start + sl.forward_raman_slice.len ∧
  sl.backward_raman_slice.start + sl.backward_raman_slice.len = n

instance (sl : SliceMap) (n : ℕ) : Decidable (sl.partitions n) := by
  unfold SliceMap.partitions; infer_instance

/-- Indexing a 1-D numpy array by a slice: `xs[a : a + len]`. -/
def applySlice (xs : List ℝ) (s : ChannelSlice) : List ℝ :=
  (xs.drop s.start).take s.len

/-- Slice assignment on a 2-D array: `guess[s] = rows` replaces the rows with
indices in `[s.start, s.start + s.len)` and keeps every other row. -/
def setRows (guess : List (List ℝ)) (s : ChannelSlice) (rows : List (List ℝ)) :
    List (List ℝ) :=
  (List.range guess.length).map fun i =>
    if s.start ≤ i ∧ i < s.start + s.len then rows.getD (i - s.start) []
    else guess.getD i []

/-- The four tunable heuristics of `DEFAULT_GUESS_PARAMS`. -/
structure GuessParams where
  signal_conversion_guess : ℝ
  signal_gain_shape : String
  pump_absorption_factor : ℝ
  ase_output_power : ℝ

/-- `DEFAULT_GUESS_PARAMS` from `initial_guess_maker.py`. -/
def DEFAULT_GUESS_PARAMS : GuessParams :=
  ⟨0.5, "linear", 0.01, 0.001⟩

/-- The state set up by `InitialGuessMaker.__init__`: the input-power vector,
the slice map, the spatial grid `z` and the heuristic parameters. -/
structure InitialGuessMaker where
  input_powers : List ℝ
  slices : SliceMap
  z : List ℝ
  params : GuessParams

namespace InitialGuessMaker

/-- `self.signal_powers = input_powers[slices['signal_slice']]`. -/
def signal_powers (g : InitialGuessMaker) : List ℝ :=
  applySlice g.input_powers g.slices.signal_slice

/-- `self.co_pump_powers = input_powers[slices['co_pump_slice']]`. -/
def co_pump_powers (g : InitialGuessMaker) : List ℝ :=
  applySlice g.input_powers g.slices.co_pump_slice

/-- `self.counter_pump_powers = input_powers[slices['counter_pump_slice']]`. -/
def counter_pump_powers (g : InitialGuessMaker) : List ℝ :=
  applySlice g.input_powers g.slices.counter_pump_slice

/-- `self.forward_ase_powers = input_powers[slices['forward_ase_slice']]`. -/
def forward_ase_powers (g : InitialGuessMaker) : List ℝ :=
  applySlice g.input_powers g.slices.forward_ase_slice

/-- `self.backward_ase_powers = input_powers[slices['backward_ase_slice']]`. -/
def backward_ase_powers (g : InitialGuessMaker) : List ℝ :=
  applySlice g.input_powers g.slices.backward_ase_slice

/-- `self.forward_raman_powers = input_powers[slices['forward_raman_slice']]`. -/
def forward_raman_powers (g : InitialGuessMaker) : List ℝ :=
  applySlice g.input_powers g.slices.forward_raman_slice

/-- `self.backward_raman_powers = input_powers[slices['backward_raman_slice']]`. -/
def backward_raman_powers (g : InitialGuessMaker) : List ℝ :=
  applySlice g.input_powers g.slices.backward_raman_slice

/-- `guess_shape`: `(len(self.input_powers), len(self.z))`. -/
def guess_shape (g : InitialGuessMaker) : ℕ × ℕ :=
  (g.input_powers.length, g.z.length)

/-- Modelled from the spec: one row of `helper_funcs.linspace_2d`, linear
interp from `s` to `e` over `n` evenly spaced points (`np.linspace`). -/
def linspaceRow (s e : ℝ) (n : ℕ) : List ℝ :=
  (List.range n).map fun j : ℕ => s + (e - s) * (j : ℝ) / ((n : ℝ) - 1)

/-- Modelled from the spec: `helper_funcs.linspace_2d(start, end, n)` builds
one `np.linspace` row per channel (linear interp start→end). -/
def linspace_2d (start eend : List ℝ) (n : ℕ) : List (List ℝ) :=
  List.zipWith (fun s e => linspaceRow s e n) start eend

/-- `linear_guess`: `linspace_2d(start, end, len(self.z))`. -/
def linear_guess (g : InitialGuessMaker) (start eend : List ℝ) : List (List ℝ) :=
  linspace_2d start eend g.z.length

/-- `exponential_guess`: `gain = log(end/start)/z[-1]; start * exp(gain * z)`,
broadcast row-wise over channels and column-wise over the grid. -/
def exponential_guess (g : InitialGuessMaker) (start eend : List ℝ) :
    List (List ℝ) :=
  List.zipWith
    (fun s e => g.z.map fun zv => s * Real.exp (Real.log (e / s) / g.z.getLastD 0 * zv))
    start eend

/-- `make_signal_guess`: start = signal input powers, end = start plus
`signal_conversion_guess` times the total pump input power, shaped per
`signal_gain_shape`; any other shape raises a `RuntimeError`. -/
def make_signal_guess (g : InitialGuessMaker) : Except String (List (List ℝ)) :=
  let total_pump_power := (co_pump_powers g).sum + (counter_pump_powers g).sum
  let signal_start := signal_powers g
  let signal_end := signal_start.map
    fun p => g.params.signal_conversion_guess * total_pump_power + p
  if g.params.signal_gain_shape = "linear" then
    Except.ok (linear_guess g signal_start signal_end)
  else if g.params.signal_gain_shape = "exponential" then
    Except.ok (exponential_guess g signal_start signal_end)
  else
    Except.error "Unrecognized signal gain shape parameter."

/-- `make_co_pump_guess`: start = input powers, end = `pump_absorption_factor`
times start. -/
def make_co_pump_guess (g : InitialGuessMaker) : List (List ℝ) :=
  let co_pump_start := co_pump_powers g
  let co_pump_end := co_pump_start.map fun p => g.params.pump_absorption_factor * p
  linear_guess g co_pump_start co_pump_end

/-- `make_counter_pump_guess`: start = `pump_absorption_factor` times the input
powers, end = the input powers. -/
def make_counter_pump_guess (g : InitialGuessMaker) : List (List ℝ) :=
  let counter_pump_start :=
    (counter_pump_powers g).map fun p => g.params.pump_absorption_factor * p
  let counter_pump_end := counter_pump_powers g
  linear_guess g counter_pump_start counter_pump_end

/-- `make_forward_ase_guess`: start = input powers, end = `np.full_like(start,
ase_output_power)`. -/
def make_forward_ase_guess (g : InitialGuessMaker) : List (List ℝ) :=
  let forward_ase_start := forward_ase_powers g
  let forward_ase_end :=
    List.replicate forward_ase_start.length g.params.ase_output_power
  linear_guess g forward_ase_start forward_ase_end

/-- `make_backward_ase_guess`: start = `np.full_like(end, ase_output_power)`,
end = input powers. -/
def make_backward_ase_guess (g : InitialGuessMaker) : List (List ℝ) :=
  let backward_ase_end := backward_ase_powers g
  let backward_ase_start :=
    List.replicate backward_ase_end.length g.params.ase_output_power
  linear_guess g backward_ase_start backward_ase_end

/-- `make_forward_raman_guess`: start = input powers, end = twice start. -/
def make_forward_raman_guess (g : InitialGuessMaker) : List (List ℝ) :=
  let forward_raman_start := forward_raman_powers g
  let forward_raman_end := forward_raman_start.map fun p => p * 2
  linear_guess g forward_raman_start forward_raman_end

/-- `make_backward_raman_guess`: start = end = input powers (flat). -/
def make_backward_raman_guess (g : InitialGuessMaker) : List (List ℝ) :=
  let backward_raman_start := backward_raman_powers g
  let backward_raman_end := backward_raman_powers g
  linear_guess g backward_raman_start backward_raman_end

/-- `make_guess`: start from `np.zeros(guess_shape())` and assign each
category's rows through its slice; only the signal guess can raise. -/
def make_guess (g : InitialGuessMaker) : Except String (List (List ℝ)) := do
  let guess0 := List.replicate g.input_powers.length (List.replicate g.z.length (0 : ℝ))
  let guess1 := setRows guess0 g.slices.signal_slice (← make_signal_guess g)
  let guess2 := setRows guess1 g.slices.co_pump_slice (make_co_pump_guess g)
  let guess3 := setRows guess2 g.slices.counter_pump_slice (make_counter_pump_guess g)
  let guess4 := setRows guess3 g.slices.forward_ase_slice (make_forward_ase_guess g)
  let guess5 := setRows guess4 g.slices.backward_ase_slice (make_backward_ase_guess g)
  let guess6 := setRows guess5 g.slices.forward_raman_slice (make_forward_raman_guess g)
  let guess7 := setRows guess6 g.slices.backward_raman_slice (make_backward_raman_guess g)
  return guess7

end InitialGuessMaker

/-- Modelled from the spec: `helper_funcs.freq_to_wl`, wavelength from
frequency via the speed of light, `wl = c / f`. -/
def freq_to_wl (f : ℝ) : ℝ :=
  299792458 / f

/-- Modelled from the spec: `helper_funcs.fundamental_mode_mfd_petermann_2`,
the Petermann-II fundamental-mode MFD from the waveguide parameters: with
V-number `v = 2π r na / wl`, the mode radius over the core radius is
`0.65 + 1.619 v^(-3/2) + 2.879 v^(-6) - 0.016 - 1.561 v^(-7)`. -/
def fundamental_mode_mfd_petermann_2 (wl r na : ℝ) : ℝ :=
  let v := 2 * Real.pi * r * na / wl
  2 * r * (0.65 + 1.619 / (v ^ (3 : ℕ)).sqrt + 2.879 / v ^ (6 : ℕ)
    - 0.016 - 1.561 / v ^ (7 : ℕ))

/-- Modelled from the spec: `helper_funcs.overlap_integral(doped_radius,
mode_radius)`, the overlap of a Gaussian mode with the doped disc,
`1 - exp(-doped_radius² / mode_radius²)`. -/
def overlap_integral (doped_radius mode_radius : ℝ) : ℝ :=
  1 - Real.exp (-(doped_radius ^ (2 : ℕ)) / mode_radius ^ (2 : ℕ))

/-- Modelled from the spec: `helper_funcs.effective_area_from_mfd`, the
Gaussian-mode effective area `π (mfd/2)²` at the Petermann-II MFD. -/
def effective_area_from_mfd (wl r na : ℝ) : ℝ :=
  Real.pi * (fundamental_mode_mfd_petermann_2 wl r na / 2) ^ (2 : ℕ)

/-- The state of an `ActiveFiber` that the claims depend on.  The two
cross-section interpolants are data produced from spectrum files at
construction time (file loading and spline fitting are out of scope), so
they are carried as opaque-to-the-claims function fields. -/
structure ActiveFiber where
  length : ℝ
  core_r : ℝ
  tau : ℝ
  ion_number_density : ℝ
  background_loss : ℝ
  core_na : ℝ
  overlap : Option ℝ
  absorption_cs_interp : ℝ → ℝ
  gain_cs_interp : ℝ → ℝ
  effective_area_type : String

namespace ActiveFiber

/-- `overlap_is_constant`: `self.overlap is not None`. -/
def overlap_is_constant (af : ActiveFiber) : Bool :=
  af.overlap.isSome

/-- `make_single_overlap`: the constant overlap when set; the overlap integral
when a positive mode-field radius is given; otherwise Python falls through
and returns `None`. -/
def make_single_overlap (af : ActiveFiber) (mode_field_radius : ℝ) : Option ℝ :=
  if af.overlap_is_constant then af.overlap
  else if 0 < mode_field_radius then
    some (overlap_integral af.core_r mode_field_radius)
  else none

/-- `get_channel_gain`: `gain_cs_interp(freq) * make_single_overlap(r) *
ion_number_density`; `None` propagates as `Option.map`. -/
def get_channel_gain (af : ActiveFiber) (freq mode_field_radius : ℝ) : Option ℝ :=
  (af.make_single_overlap mode_field_radius).map
    fun ov => af.gain_cs_interp freq * ov * af.ion_number_density

/-- `get_channel_absorption`: as `get_channel_gain` with the absorption
interpolant. -/
def get_channel_absorption (af : ActiveFiber) (freq mode_field_radius : ℝ) :
    Option ℝ :=
  (af.make_single_overlap mode_field_radius).map
    fun ov => af.absorption_cs_interp freq * ov * af.ion_number_density

/-- `get_mfd`: the preset MFD when positive, else the Petermann-II default. -/
def get_mfd (af : ActiveFiber) (freq preset_mfd : ℝ) : ℝ :=
  if 0 < preset_mfd then preset_mfd
  else fundamental_mode_mfd_petermann_2 (freq_to_wl freq) af.core_r af.core_na

/-- `core_area`: `core_r² · π`. -/
def core_area (af : ActiveFiber) : ℝ :=
  af.core_r ^ (2 : ℕ) * Real.pi

/-- `effective_area_from_core_area`: the core area (times `ones_like(freq)`,
which for a scalar frequency is the identity). -/
def effective_area_from_core_area (af : ActiveFiber) (_freq : ℝ) : ℝ :=
  af.core_area

/-- `effective_area_from_gaussian_approximation`. -/
def effective_area_from_gaussian_approximation (af : ActiveFiber) (freq : ℝ) : ℝ :=
  effective_area_from_mfd (freq_to_wl freq) af.core_r af.core_na

/-- `effective_area_from_bessel_distribution`: `raise NotImplementedError`. -/
def effective_area_from_bessel_distribution (_af : ActiveFiber) (_freq : ℝ) :
    Except String ℝ :=
  Except.error "NotImplementedError"

/-- `nonlinear_effective_area`: string dispatch on `effective_area_type`; a
value outside the three known ones falls off the `if/elif` chain, which in
Python returns `None` (`Except.ok none` here). -/
def nonlinear_effective_area (af : ActiveFiber) (freq : ℝ) :
    Except String (Option ℝ) :=
  if af.effective_area_type = "core_area" then
    Except.ok (some (af.effective_area_from_core_area freq))
  else if af.effective_area_type = "gaussian" then
    Except.ok (some (af.effective_area_from_gaussian_approximation freq))
  else if af.effective_area_type = "bessel" then
    (af.effective_area_from_bessel_distribution freq).map some
  else
    Except.ok none

/-- `finite_bandwidth_gain`: `np.mean` of the channel gain at the two
band-edge frequencies `center ± bandwidth/2`. -/
def finite_bandwidth_gain (af : ActiveFiber)
    (center_frequency frequency_bandwidth mode_field_radius : ℝ) : Option ℝ :=
  let start_frequency := center_frequency - frequency_bandwidth / 2
  let end_frequency := center_frequency + frequency_bandwidth / 2
  (af.get_channel_gain start_frequency mode_field_radius).bind fun start_gain =>
    (af.get_channel_gain end_frequency mode_field_radius).map fun end_gain =>
      (start_gain + end_gain) / 2

/-- `finite_bandwidth_absorption`: as `finite_bandwidth_gain` with the
absorption coefficient. -/
def finite_bandwidth_absorption (af : ActiveFiber)
    (center_frequency frequency_bandwidth mode_field_radius : ℝ) : Option ℝ :=
  let start_frequency := center_frequency - frequency_bandwidth / 2
  let end_frequency := center_frequency + frequency_bandwidth / 2
  (af.get_channel_absorption start_frequency mode_field_radius).bind
    fun start_absorption =>
      (af.get_channel_absorption end_frequency mode_field_radius).map
        fun end_absorption => (start_absorption + end_absorption) / 2

end ActiveFiber

/-! ### Concrete configurations used to instantiate the theorems -/

/-- A three-channel configuration: one signal (2 W), one co-propagating pump
(3 W), one counter-propagating pump (4 W), default parameters, grid
`[0, 0.5, 1]`. -/
def demoMaker : InitialGuessMaker :=
  ⟨[2, 3, 4],
    ⟨⟨0, 1⟩, ⟨1, 1⟩, ⟨2, 1⟩, ⟨3, 0⟩, ⟨3, 0⟩, ⟨3, 0⟩, ⟨3, 0⟩⟩,
    [0, 0.5, 1], DEFAULT_GUESS_PARAMS⟩

/-- `demoMaker` with an unrecognized `signal_gain_shape`. -/
def demoMakerBadShape : InitialGuessMaker :=
  ⟨[2, 3, 4],
    ⟨⟨0, 1⟩, ⟨1, 1⟩, ⟨2, 1⟩, ⟨3, 0⟩, ⟨3, 0⟩, ⟨3, 0⟩, ⟨3, 0⟩⟩,
    [0, 0.5, 1], ⟨0.5, "cubic", 0.01, 0.001⟩⟩

/-- A single zero-power signal channel, no pumps, default parameters. -/
def demoMakerZero : InitialGuessMaker :=
  ⟨[0],
    ⟨⟨0, 1⟩, ⟨1, 0⟩, ⟨1, 0⟩, ⟨1, 0⟩, ⟨1, 0⟩, ⟨1, 0⟩, ⟨1, 0⟩⟩,
    [0, 1], DEFAULT_GUESS_PARAMS⟩

/-- A fiber with a constant overlap, constant interpolants and
`effective_area_type = 'bessel'`. -/
def demoFiberBessel : ActiveFiber :=
  ⟨1, 0.000005, 0.001, 1, 0, 0.12, some 1, fun _ => 3, fun _ => 2, "bessel"⟩

/-- `demoFiberBessel` with an unrecognized `effective_area_type`. -/
def demoFiberUnknown : ActiveFiber :=
  ⟨1, 0.000005, 0.001, 1, 0, 0.12, some 1, fun _ => 3, fun _ => 2, "triangle"⟩

/-! ### Helper lemmas on the embedded list operations -/

namespace InitialGuessMaker

lemma length_linspaceRow (s e : ℝ) (n : ℕ) : (linspaceRow s e n).length = n := by
  simp [linspaceRow]

lemma getD_linspaceRow (s e : ℝ) {n j : ℕ} (hj : j < n) :
    (linspaceRow s e n).getD j 0 = s + (e - s) * (j : ℝ) / ((n : ℝ) - 1) := by
  rw [List.getD_eq_getElem?_getD]
  unfold linspaceRow
  rw [List.getElem?_map, List.getElem?_range hj]
  rfl

lemma linspaceRow_first (s e : ℝ) {n : ℕ} (hn : 1 ≤ n) :
    (linspaceRow s e n).getD 0 0 = s := by
  rw [getD_linspaceRow s e hn]
  simp

lemma linspaceRow_last (s e : ℝ) {n : ℕ} (hn : 2 ≤ n) :
    (linspaceRow s e n).getD (n - 1) 0 = e := by
  rw [getD_linspaceRow s e (show n - 1 < n by omega)]
  have hne : ((n : ℝ) - 1) ≠ 0 := by
    have h2 : (2 : ℝ) ≤ (n : ℝ) := by exact_mod_cast hn
    linarith
  have hcast : ((n - 1 : ℕ) : ℝ) = (n : ℝ) - 1 := by
    have h1 : 1 ≤ n := by omega
    push_cast [h1]
    ring
  rw [hcast, mul_div_assoc, div_self hne, mul_one]
  ring

lemma linspaceRow_nonneg {s e : ℝ} (hs : 0 ≤ s) (he : 0 ≤ e) (n : ℕ) :
    ∀ x ∈ linspaceRow s e n, 0 ≤ x := by
  intro x hx
  unfold linspaceRow at hx
  simp only [List.mem_map, List.mem_range] at hx
  obtain ⟨j, hj, rfl⟩ := hx
  rcases Nat.lt_or_ge n 2 with h2 | h2
  · have hj0 : j = 0 := by omega
    subst hj0
    simp [hs]
  · have hc : (0 : ℝ) < (n : ℝ) - 1 := by
      have : (2 : ℝ) ≤ (n : ℝ) := by exact_mod_cast h2
      linarith
    have hj1 : (j : ℝ) ≤ (n : ℝ) - 1 := by
      have : (j : ℝ) + 1 ≤ (n : ℝ) := by exact_mod_cast hj
      linarith
    have ht0 : 0 ≤ (j : ℝ) / ((n : ℝ) - 1) := div_nonneg (Nat.cast_nonneg j) hc.le
    have ht1 : (j : ℝ) / ((n : ℝ) - 1) ≤ 1 := (div_le_one hc).2 hj1
    rw [mul_div_assoc]
    nlinarith [mul_nonneg hs (sub_nonneg.mpr ht1), mul_nonneg he ht0]

lemma length_linspace_2d (a b : List ℝ) (n : ℕ) :
    (linspace_2d a b n).length = min a.length b.length := by
  simp [linspace_2d]

lemma getD_linspace_2d {a b : List ℝ} (n : ℕ) {i : ℕ}
    (ha : i < a.length) (hb : i < b.length) :
    (linspace_2d a b n).getD i [] = linspaceRow (a.getD i 0) (b.getD i 0) n := by
  have hi : i < (linspace_2d a b n).length := by
    rw [length_linspace_2d]; omega
  rw [List.getD_eq_getElem _ _ hi, List.getD_eq_getElem _ _ ha,
    List.getD_eq_getElem _ _ hb]
  unfold linspace_2d
  rw [List.getElem_zipWith]

lemma length_of_mem_linspace_2d {a b : List ℝ} {n : ℕ} {row : List ℝ}
    (h : row ∈ linspace_2d a b n) : row.length = n := by
  unfold linspace_2d at h
  rw [List.mem_iff_getElem] at h
  obtain ⟨i, hi, rfl⟩ := h
  rw [List.getElem_zipWith]
  exact length_linspaceRow _ _ _

lemma getD_mem_of_lt {l : List (List ℝ)} {k : ℕ} (hk : k < l.length) :
    l.getD k [] ∈ l := by
  rw [List.getD_eq_getElem _ _ hk]
  exact List.getElem_mem hk

lemma length_applySlice (xs : List ℝ) (s : ChannelSlice) :
    (applySlice xs s).length = min s.len (xs.length - s.start) := by
  simp [applySlice]

lemma getD_applySlice {xs : List ℝ} {s : ChannelSlice} {k : ℕ}
    (hk : k < s.len) (hb : s.start + k < xs.length) :
    (applySlice xs s).getD k 0 = xs.getD (s.start + k) 0 := by
  have h1 : k < (applySlice xs s).length := by
    rw [length_applySlice]; omega
  rw [List.getD_eq_getElem _ _ h1, List.getD_eq_getElem _ _ hb]
  unfold applySlice
  rw [List.getElem_take, List.getElem_drop]

lemma applySlice_subset (xs : List ℝ) (s : ChannelSlice) : applySlice xs s ⊆ xs :=
  fun _ hx => List.drop_subset _ _ (List.take_subset _ _ hx)

lemma length_setRows (g : List (List ℝ)) (s : ChannelSlice) (rows : List (List ℝ)) :
    (setRows g s rows).length = g.length := by
  simp [setRows]

lemma getD_setRows (g : List (List ℝ)) (s : ChannelSlice) (rows : List (List ℝ))
    {i : ℕ} (hi : i < g.length) :
    (setRows g s rows).getD i [] =
      if s.start ≤ i ∧ i < s.start + s.len then rows.getD (i - s.start) []
      else g.getD i [] := by
  rw [List.getD_eq_getElem?_getD]
  unfold setRows
  rw [List.getElem?_map, List.getElem?_range hi]
  rfl

/-- The array `make_guess` assembles when the signal guess succeeds. -/
def assembled (g : InitialGuessMaker) (sig : List (List ℝ)) : List (List ℝ) :=
  setRows (setRows (setRows (setRows (setRows (setRows (setRows
    (List.replicate g.input_powers.length (List.replicate g.z.length (0 : ℝ)))
    g.slices.signal_slice sig)
    g.slices.co_pump_slice (make_co_pump_guess g))
    g.slices.counter_pump_slice (make_counter_pump_guess g))
    g.slices.forward_ase_slice (make_forward_ase_guess g))
    g.slices.backward_ase_slice (make_backward_ase_guess g))
    g.slices.forward_raman_slice (make_forward_raman_guess g))
    g.slices.backward_raman_slice (make_backward_raman_guess g)

lemma make_guess_eq_ok (g : InitialGuessMaker) {sig : List (List ℝ)}
    (hsig : make_signal_guess g = Except.ok sig) :
    make_guess g = Except.ok (assembled g sig) := by
  simp [make_guess, hsig, assembled]

lemma make_guess_eq_error (g : InitialGuessMaker) {msg : String}
    (hsig : make_signal_guess g = Except.error msg) :
    make_guess g = Except.error msg := by
  simp [make_guess, hsig]

lemma length_assembled (g : InitialGuessMaker) (sig : List (List ℝ)) :
    (assembled g sig).length = g.input_powers.length := by
  simp [assembled, length_setRows]

lemma getD_assembled (g : InitialGuessMaker) (sig : List (List ℝ))
    {i : ℕ} (hi : i < g.input_powers.length) :
    (assembled g sig).getD i [] =
      if g.slices.backward_raman_slice.start ≤ i ∧
          i < g.slices.backward_raman_slice.start + g.slices.backward_raman_slice.len then
        (make_backward_raman_guess g).getD (i - g.slices.backward_raman_slice.start) []
      else if g.slices.forward_raman_slice.start ≤ i ∧
          i < g.slices.forward_raman_slice.start + g.slices.forward_raman_slice.len then
        (make_forward_raman_guess g).getD (i - g.slices.forward_raman_slice.start) []
      else if g.slices.backward_ase_slice.start ≤ i ∧
          i < g.slices.backward_ase_slice.start + g.slices.backward_ase_slice.len then
        (make_backward_ase_guess g).getD (i - g.slices.backward_ase_slice.start) []
      else if g.slices.forward_ase_slice.start ≤ i ∧
          i < g.slices.forward_ase_slice.start + g.slices.forward_ase_slice.len then
        (make_forward_ase_guess g).getD (i - g.slices.forward_ase_slice.start) []
      else if g.slices.counter_pump_slice.start ≤ i ∧
          i < g.slices.counter_pump_slice.start + g.slices.counter_pump_slice.len then
        (make_counter_pump_guess g).getD (i - g.slices.counter_pump_slice.start) []
      else if g.slices.co_pump_slice.start ≤ i ∧
          i < g.slices.co_pump_slice.start + g.slices.co_pump_slice.len then
        (make_co_pump_guess g).getD (i - g.slices.co_pump_slice.start) []
      else if g.slices.signal_slice.start ≤ i ∧
          i < g.slices.signal_slice.start + g.slices.signal_slice.len then
        sig.getD (i - g.slices.signal_slice.start) []
      else List.replicate g.z.length (0 : ℝ) := by
  unfold assembled
  rw [getD_setRows _ _ _ (by simp [length_setRows]; omega)]
  rw [getD_setRows _ _ _ (by simp [length_setRows]; omega)]
  rw [getD_setRows _ _ _ (by simp [length_setRows]; omega)]
  rw [getD_setRows _ _ _ (by simp [length_setRows]; omega)]
  rw [getD_setRows _ _ _ (by simp [length_setRows]; omega)]
  rw [getD_setRows _ _ _ (by simp [length_setRows]; omega)]
  rw [getD_setRows _ _ _ (by simp [List.length_replicate]; omega)]
  have hrep : (List.replicate g.input_powers.length
      (List.replicate g.z.length (0 : ℝ))).getD i [] = List.replicate g.z.length (0 : ℝ) := by
    rw [List.getD_eq_getElem _ _ (by simpa using hi)]
    exact List.getElem_replicate _ _
  rw [hrep]

lemma assembled_row_signal (g : InitialGuessMaker) (sig : List (List ℝ))
    (hpart : g.slices.partitions g.input_powers.length)
    {k : ℕ} (hk : k < g.slices.signal_slice.len) :
    (assembled g sig).getD (g.slices.signal_slice.start + k) [] = sig.getD k [] := by
  obtain ⟨h1, h2, h3, h4, h5, h6, h7, h8⟩ := hpart
  rw [getD_assembled g sig (by omega)]
  rw [if_neg (by omega), if_neg (by omega), if_neg (by omega), if_neg (by omega),
    if_neg (by omega), if_neg (by omega), if_pos (by omega)]
  congr 1
  omega

lemma assembled_row_co_pump (g : InitialGuessMaker) (sig : List (List ℝ))
    (hpart : g.slices.partitions g.input_powers.length)
    {k : ℕ} (hk : k < g.slices.co_pump_slice.len) :
    (assembled g sig).getD (g.slices.co_pump_slice.start + k) [] =
      (make_co_pump_guess g).getD k [] := by
  obtain ⟨h1, h2, h3, h4, h5, h6, h7, h8⟩ := hpart
  rw [getD_assembled g sig (by omega)]
  rw [if_neg (by omega), if_neg (by omega), if_neg (by omega), if_neg (by omega),
    if_neg (by omega), if_pos (by omega)]
  congr 1
  omega

lemma assembled_row_counter_pump (g : InitialGuessMaker) (sig : List (List ℝ))
    (hpart : g.slices.partitions g.input_powers.length)
    {k : ℕ} (hk : k < g.slices.counter_pump_slice.len) :
    (assembled g sig).getD (g.slices.counter_pump_slice.start + k) [] =
      (make_counter_pump_guess g).getD k [] := by
  obtain ⟨h1, h2, h3, h4, h5, h6, h7, h8⟩ := hpart
  rw [getD_assembled g sig (by omega)]
  rw [if_neg (by omega), if_neg (by omega), if_neg (by omega), if_neg (by omega),
    if_pos (by omega)]
  congr 1
  omega

lemma assembled_row_forward_ase (g : InitialGuessMaker) (sig : List (List ℝ))
    (hpart : g.slices.partitions g.input_powers.length)
    {k : ℕ} (hk : k < g.slices.forward_ase_slice.len) :
    (assembled g sig).getD (g.slices.forward_ase_slice.start + k) [] =
      (make_forward_ase_guess g).getD k [] := by
  obtain ⟨h1, h2, h3, h4, h5, h6, h7, h8⟩ := hpart
  rw [getD_assembled g sig (by omega)]
  rw [if_neg (by omega), if_neg (by omega), if_neg (by omega), if_pos (by omega)]
  congr 1
  omega

lemma assembled_row_backward_ase (g : InitialGuessMaker) (sig : List (List ℝ))
    (hpart : g.slices.partitions g.input_powers.length)
    {k : ℕ} (hk : k < g.slices.backward_ase_slice.len) :
    (assembled g sig).getD (g.slices.backward_ase_slice.start + k) [] =
      (make_backward_ase_guess g).getD k [] := by
  obtain ⟨h1, h2, h3, h4, h5, h6, h7, h8⟩ := hpart
  rw [getD_assembled g sig (by omega)]
  rw [if_neg (by omega), if_neg (by omega), if_pos (by omega)]
  congr 1
  omega

lemma assembled_row_forward_raman (g : InitialGuessMaker) (sig : List (List ℝ))
    (hpart : g.slices.partitions g.input_powers.length)
    {k : ℕ} (hk : k < g.slices.forward_raman_slice.len) :
    (assembled g sig).getD (g.slices.forward_raman_slice.start + k) [] =
      (make_forward_raman_guess g).getD k [] := by
  obtain ⟨h1, h2, h3, h4, h5, h6, h7, h8⟩ := hpart
  rw [getD_assembled g sig (by omega)]
  rw [if_neg (by omega), if_pos (by omega)]
  congr 1
  omega

lemma assembled_row_backward_raman (g : InitialGuessMaker) (sig : List (List ℝ))
    (hpart : g.slices.partitions g.input_powers.length)
    {k : ℕ} (hk : k < g.slices.backward_raman_slice.len) :
    (assembled g sig).getD (g.slices.backward_raman_slice.start + k) [] =
      (make_backward_raman_guess g).getD k [] := by
  obtain ⟨h1, h2, h3, h4, h5, h6, h7, h8⟩ := hpart
  rw [getD_assembled g sig (by omega)]
  rw [if_pos (by omega)]
  congr 1
  omega

lemma length_make_co_pump_guess (g : InitialGuessMaker) :
    (make_co_pump_guess g).length = (co_pump_powers g).length := by
  simp [make_co_pump_guess, linear_guess, length_linspace_2d]

lemma length_make_counter_pump_guess (g : InitialGuessMaker) :
    (make_counter_pump_guess g).length = (counter_pump_powers g).length := by
  simp [make_counter_pump_guess, linear_guess, length_linspace_2d]

lemma length_make_forward_ase_guess (g : InitialGuessMaker) :
    (make_forward_ase_guess g).length = (forward_ase_powers g).length := by
  simp [make_forward_ase_guess, linear_guess, length_linspace_2d]

lemma length_make_backward_ase_guess (g : InitialGuessMaker) :
    (make_backward_ase_guess g).length = (backward_ase_powers g).length := by
  simp [make_backward_ase_guess, linear_guess, length_linspace_2d]

lemma length_make_forward_raman_guess (g : InitialGuessMaker) :
    (make_forward_raman_guess g).length = (forward_raman_powers g).length := by
  simp [make_forward_raman_guess, linear_guess, length_linspace_2d]

lemma length_make_backward_raman_guess (g : InitialGuessMaker) :
    (make_backward_raman_guess g).length = (backward_raman_powers g).length := by
  simp [make_backward_raman_guess, linear_guess, length_linspace_2d]

lemma length_applySlice_of_le {xs : List ℝ} {s : ChannelSlice}
    (h : s.start + s.len ≤ xs.length) : (applySlice xs s).length = s.len := by
  rw [length_applySlice]; omega

lemma length_of_mem_exponential_guess {g : InitialGuessMaker} {a b : List ℝ}
    {row : List ℝ} (h : row ∈ exponential_guess g a b) : row.length = g.z.length := by
  unfold exponential_guess at h
  rw [List.mem_iff_getElem] at h
  obtain ⟨i, hi, rfl⟩ := h
  rw [List.getElem_zipWith]
  simp

lemma getD_exponential_guess {a b : List ℝ} (g : InitialGuessMaker) {i : ℕ}
    (ha : i < a.length) (hb : i < b.length) :
    (exponential_guess g a b).getD i [] =
      g.z.map fun zv =>
        a.getD i 0 * Real.exp (Real.log (b.getD i 0 / a.getD i 0) / g.z.getLastD 0 * zv) := by
  have hi : i < (exponential_guess g a b).length := by
    simp only [exponential_guess, List.length_zipWith]; omega
  rw [List.getD_eq_getElem _ _ hi, List.getD_eq_getElem _ _ ha,
    List.getD_eq_getElem _ _ hb]
  unfold exponential_guess
  rw [List.getElem_zipWith]

lemma getD_map_real {f : ℝ → ℝ} {l : List ℝ} {j : ℕ} (hj : j < l.length) :
    (l.map f).getD j 0 = f (l.getD j 0) := by
  rw [List.getD_eq_getElem _ _ (by simpa using hj), List.getD_eq_getElem _ _ hj,
    List.getElem_map]

lemma make_signal_guess_ok (g : InitialGuessMaker)
    (hshape : g.params.signal_gain_shape = "linear" ∨
      g.params.signal_gain_shape = "exponential") :
    ∃ sig, make_signal_guess g = Except.ok sig ∧
      sig.length = (signal_powers g).length ∧
      ∀ row ∈ sig, row.length = g.z.length := by
  rcases hshape with h | h
  · refine ⟨linear_guess g (signal_powers g) ((signal_powers g).map fun p =>
      g.params.signal_conversion_guess *
        ((co_pump_powers g).sum + (counter_pump_powers g).sum) + p),
      by simp [make_signal_guess, h], ?_, ?_⟩
    · simp [linear_guess, length_linspace_2d]
    · intro row hrow
      exact length_of_mem_linspace_2d (by simpa [linear_guess] using hrow)
  · refine ⟨exponential_guess g (signal_powers g) ((signal_powers g).map fun p =>
      g.params.signal_conversion_guess *
        ((co_pump_powers g).sum + (counter_pump_powers g).sum) + p),
      by simp [make_signal_guess, h], ?_, ?_⟩
    · simp [exponential_guess, List.length_zipWith]
    · intro row hrow
      exact length_of_mem_exponential_guess hrow

lemma length_of_mem_linear_guess {g : InitialGuessMaker} {a b row : List ℝ}
    (h : row ∈ linear_guess g a b) : row.length = g.z.length :=
  length_of_mem_linspace_2d (by simpa [linear_guess] using h)

lemma getLastD_eq_getD (l : List ℝ) (d : ℝ) :
    l.getLastD d = l.getD (l.length - 1) d := by
  rw [List.getLastD_eq_getLast?, List.getLast?_eq_getElem?, List.getD_eq_getElem?_getD]

lemma nonneg_mem_linear_guess {g : InitialGuessMaker} {a b : List ℝ}
    (hA : ∀ p ∈ a, 0 ≤ p) (hB : ∀ p ∈ b, 0 ≤ p) :
    ∀ row ∈ linear_guess g a b, ∀ x ∈ row, 0 ≤ x := by
  intro row hrow x hx
  rw [show linear_guess g a b = linspace_2d a b g.z.length from rfl] at hrow
  unfold linspace_2d at hrow
  rw [List.mem_iff_getElem] at hrow
  obtain ⟨i, hilen, rfl⟩ := hrow
  rw [List.length_zipWith] at hilen
  have hia : i < a.length := lt_of_lt_of_le hilen (min_le_left _ _)
  have hib : i < b.length := lt_of_lt_of_le hilen (min_le_right _ _)
  rw [List.getElem_zipWith] at hx
  exact linspaceRow_nonneg (hA _ (List.getElem_mem hia)) (hB _ (List.getElem_mem hib))
    _ x hx

lemma nonneg_powers_slice (g : InitialGuessMaker)
    (hpow : ∀ p ∈ g.input_powers, 0 ≤ p) (s : ChannelSlice) :
    ∀ p ∈ applySlice g.input_powers s, 0 ≤ p :=
  fun p hp => hpow p (applySlice_subset _ _ hp)

lemma nonneg_mem_signal_linear_guess (g : InitialGuessMaker)
    (hpow : ∀ p ∈ g.input_powers, 0 ≤ p)
    (hconv : 0 ≤ g.params.signal_conversion_guess) :
    ∀ row ∈ linear_guess g (signal_powers g) ((signal_powers g).map fun p =>
      g.params.signal_conversion_guess *
        ((co_pump_powers g).sum + (counter_pump_powers g).sum) + p),
      ∀ x ∈ row, 0 ≤ x := by
  have hA := nonneg_powers_slice g hpow g.slices.signal_slice
  have hsum : 0 ≤ (co_pump_powers g).sum + (counter_pump_powers g).sum :=
    add_nonneg
      (List.sum_nonneg (nonneg_powers_slice g hpow g.slices.co_pump_slice))
      (List.sum_nonneg (nonneg_powers_slice g hpow g.slices.counter_pump_slice))
  refine nonneg_mem_linear_guess hA ?_
  intro p hp
  simp only [List.mem_map] at hp
  obtain ⟨q, hq, rfl⟩ := hp
  exact add_nonneg (mul_nonneg hconv hsum) (hA q hq)

lemma nonneg_mem_make_co_pump_guess (g : InitialGuessMaker)
    (hpow : ∀ p ∈ g.input_powers, 0 ≤ p)
    (hfac : 0 ≤ g.params.pump_absorption_factor) :
    ∀ row ∈ make_co_pump_guess g, ∀ x ∈ row, 0 ≤ x := by
  have hA := nonneg_powers_slice g hpow g.slices.co_pump_slice
  intro row hrow
  refine nonneg_mem_linear_guess hA ?_ row (by simpa [make_co_pump_guess] using hrow)
  intro p hp
  simp only [List.mem_map] at hp
  obtain ⟨q, hq, rfl⟩ := hp
  exact mul_nonneg hfac (hA q hq)

lemma nonneg_mem_make_counter_pump_guess (g : InitialGuessMaker)
    (hpow : ∀ p ∈ g.input_powers, 0 ≤ p)
    (hfac : 0 ≤ g.params.pump_absorption_factor) :
    ∀ row ∈ make_counter_pump_guess g, ∀ x ∈ row, 0 ≤ x := by
  have hA := nonneg_powers_slice g hpow g.slices.counter_pump_slice
  intro row hrow
  refine nonneg_mem_linear_guess ?_ hA row
    (by simpa [make_counter_pump_guess] using hrow)
  intro p hp
  simp only [List.mem_map] at hp
  obtain ⟨q, hq, rfl⟩ := hp
  exact mul_nonneg hfac (hA q hq)

lemma nonneg_mem_make_forward_ase_guess (g : InitialGuessMaker)
    (hpow : ∀ p ∈ g.input_powers, 0 ≤ p)
    (hase : 0 ≤ g.params.ase_output_power) :
    ∀ row ∈ make_forward_ase_guess g, ∀ x ∈ row, 0 ≤ x := by
  have hA := nonneg_powers_slice g hpow g.slices.forward_ase_slice
  intro row hrow
  refine nonneg_mem_linear_guess hA ?_ row
    (by simpa [make_forward_ase_guess] using hrow)
  intro p hp
  rw [List.eq_of_mem_replicate hp]
  exact hase

lemma nonneg_mem_make_backward_ase_guess (g : InitialGuessMaker)
    (hpow : ∀ p ∈ g.input_powers, 0 ≤ p)
    (hase : 0 ≤ g.params.ase_output_power) :
    ∀ row ∈ make_backward_ase_guess g, ∀ x ∈ row, 0 ≤ x := by
  have hA := nonneg_powers_slice g hpow g.slices.backward_ase_slice
  intro row hrow
  refine nonneg_mem_linear_guess ?_ hA row
    (by simpa [make_backward_ase_guess] using hrow)
  intro p hp
  rw [List.eq_of_mem_replicate hp]
  exact hase

lemma nonneg_mem_make_forward_raman_guess (g : InitialGuessMaker)
    (hpow : ∀ p ∈ g.input_powers, 0 ≤ p) :
    ∀ row ∈ make_forward_raman_guess g, ∀ x ∈ row, 0 ≤ x := by
  have hA := nonneg_powers_slice g hpow g.slices.forward_raman_slice
  intro row hrow
  refine nonneg_mem_linear_guess hA ?_ row
    (by simpa [make_forward_raman_guess] using hrow)
  intro p hp
  simp only [List.mem_map] at hp
  obtain ⟨q, hq, rfl⟩ := hp
  nlinarith [hA q hq]

lemma nonneg_mem_make_backward_raman_guess (g : InitialGuessMaker)
    (hpow : ∀ p ∈ g.input_powers, 0 ≤ p) :
    ∀ row ∈ make_backward_raman_guess g, ∀ x ∈ row, 0 ≤ x := by
  have hA := nonneg_powers_slice g hpow g.slices.backward_raman_slice
  intro row hrow
  exact nonneg_mem_linear_guess hA hA row
    (by simpa [make_backward_raman_guess] using hrow)

end InitialGuessMaker

/-! ### The claims -/

namespace InitialGuessMaker

/-- C1: `make_signal_guess` builds each signal row from the start vector
`start_i` = that signal's input power and the end vector
`end_i = start_i + signal_conversion_guess · (sum of all co-propagating pump
input powers plus all counter-propagating pump input powers)`: for the
default `'linear'` shape the row runs from `start_i` to exactly `end_i`, and
for the `'exponential'` shape the very same start/end vectors are handed to
the exponential interpolant. -/
theorem make_signal_guess_start_end (g : InitialGuessMaker)
    (hm : 2 ≤ g.z.length) (i : ℕ) (hi : i < (signal_powers g).length) :
    (g.params.signal_gain_shape = "linear" →
      ∃ rows, make_signal_guess g = Except.ok rows ∧
        rows.length = (signal_powers g).length ∧
        (rows.getD i []).getD 0 0 = (signal_powers g).getD i 0 ∧
        (rows.getD i []).getD (g.z.length - 1) 0 =
          (signal_powers g).getD i 0 +
            g.params.signal_conversion_guess *
              ((co_pump_powers g).sum + (counter_pump_powers g).sum)) ∧
    (g.params.signal_gain_shape = "exponential" →
      make_signal_guess g = Except.ok (exponential_guess g (signal_powers g)
        ((signal_powers g).map fun p =>
          g.params.signal_conversion_guess *
            ((co_pump_powers g).sum + (counter_pump_powers g).sum) + p))) := by
  constructor
  · intro hshape
    refine ⟨linear_guess g (signal_powers g) ((signal_powers g).map fun p =>
        g.params.signal_conversion_guess *
          ((co_pump_powers g).sum + (counter_pump_powers g).sum) + p),
      by simp [make_signal_guess, hshape],
      by simp [linear_guess, length_linspace_2d], ?_, ?_⟩
    · rw [show linear_guess g (signal_powers g) _ = linspace_2d (signal_powers g) _
          g.z.length from rfl,
        getD_linspace_2d _ hi (by simpa using hi), linspaceRow_first _ _ (by omega)]
    · rw [show linear_guess g (signal_powers g) _ = linspace_2d (signal_powers g) _
          g.z.length from rfl,
        getD_linspace_2d _ hi (by simpa using hi), linspaceRow_last _ _ hm,
        getD_map_real hi]
      ring
  · intro hshape
    simp [make_signal_guess, hshape]

/-- C2: an unrecognized `signal_gain_shape` makes `make_signal_guess`, and
hence `make_guess`, fail with the configuration error; no guess is returned
and there is no fallback shape. -/
theorem make_signal_guess_invalid_shape (g : InitialGuessMaker)
    (h1 : g.params.signal_gain_shape ≠ "linear")
    (h2 : g.params.signal_gain_shape ≠ "exponential") :
    make_signal_guess g = Except.error "Unrecognized signal gain shape parameter." ∧
      make_guess g = Except.error "Unrecognized signal gain shape parameter." := by
  have hs : make_signal_guess g =
      Except.error "Unrecognized signal gain shape parameter." := by
    simp [make_signal_guess, h1, h2]
  exact ⟨hs, make_guess_eq_error g hs⟩

/-- C4: for the `'exponential'` shape the guess row of a channel with positive
start and end equals `start · exp(z · ln(end/start)/z_max)` pointwise over a
grid running from `z = 0` to `z = z_max > 0`; its first column equals `start`
and its last column equals `end` (so start 1, end e over `[0, 1]` gives 1 at
`z = 0` and e at `z = 1`). -/
theorem exponential_guess_endpoints (g : InitialGuessMaker) (start eend : List ℝ)
    (i : ℕ) (hia : i < start.length) (hib : i < eend.length)
    (hs : 0 < start.getD i 0) (he : 0 < eend.getD i 0)
    (hm : 2 ≤ g.z.length) (hz0 : g.z.getD 0 0 = 0)
    (hzmax : 0 < g.z.getLastD 0) :
    (∀ j, j < g.z.length →
      ((exponential_guess g start eend).getD i []).getD j 0 =
        start.getD i 0 *
          Real.exp (Real.log (eend.getD i 0 / start.getD i 0) / g.z.getLastD 0 *
            g.z.getD j 0)) ∧
    ((exponential_guess g start eend).getD i []).getD 0 0 = start.getD i 0 ∧
    ((exponential_guess g start eend).getD i []).getD (g.z.length - 1) 0 =
      eend.getD i 0 := by
  rw [getD_exponential_guess g hia hib]
  refine ⟨fun j hj => getD_map_real hj, ?_, ?_⟩
  · rw [getD_map_real (by omega), hz0, mul_zero, Real.exp_zero, mul_one]
  · rw [getD_map_real (by omega), ← getLastD_eq_getD,
      div_mul_cancel₀ _ (ne_of_gt hzmax), Real.exp_log (div_pos he hs), mul_comm,
      div_mul_cancel₀ _ (ne_of_gt hs)]

/-- C5: `make_counter_pump_guess` runs linearly from
`pump_absorption_factor · input power` at the first grid point up to the input
power at the last grid point, the mirror image of `make_co_pump_guess`, which
runs from the input power down to `pump_absorption_factor · input power`. -/
theorem counter_pump_guess_mirrored (g : InitialGuessMaker) (hm : 2 ≤ g.z.length) :
    (∀ i, i < (counter_pump_powers g).length →
      ((make_counter_pump_guess g).getD i []).getD 0 0 =
          g.params.pump_absorption_factor * (counter_pump_powers g).getD i 0 ∧
        ((make_counter_pump_guess g).getD i []).getD (g.z.length - 1) 0 =
          (counter_pump_powers g).getD i 0) ∧
    (∀ i, i < (co_pump_powers g).length →
      ((make_co_pump_guess g).getD i []).getD 0 0 = (co_pump_powers g).getD i 0 ∧
        ((make_co_pump_guess g).getD i []).getD (g.z.length - 1) 0 =
          g.params.pump_absorption_factor * (co_pump_powers g).getD i 0) := by
  constructor
  · intro i hi
    rw [show make_counter_pump_guess g =
        linspace_2d ((counter_pump_powers g).map fun p =>
          g.params.pump_absorption_factor * p) (counter_pump_powers g)
          g.z.length from rfl,
      getD_linspace_2d _ (by simpa using hi) hi]
    exact ⟨by rw [linspaceRow_first _ _ (by omega), getD_map_real hi],
      linspaceRow_last _ _ hm⟩
  · intro i hi
    rw [show make_co_pump_guess g =
        linspace_2d (co_pump_powers g) ((co_pump_powers g).map fun p =>
          g.params.pump_absorption_factor * p) g.z.length from rfl,
      getD_linspace_2d _ hi (by simpa using hi)]
    exact ⟨linspaceRow_first _ _ (by omega),
      by rw [linspaceRow_last _ _ hm, getD_map_real hi]⟩

/-- C3: under a slice map partitioning `[0, n)` and a recognized gain shape,
`make_guess` returns a 2-D array of shape exactly
`(input-power count, grid length)`, with each category's rows placed at that
category's slice, so channel ordering matches the input-power vector. -/
theorem make_guess_shape_placement (g : InitialGuessMaker)
    (hpart : g.slices.partitions g.input_powers.length)
    (hshape : g.params.signal_gain_shape = "linear" ∨
      g.params.signal_gain_shape = "exponential")
    (hn : 1 ≤ g.input_powers.length) (hm : 2 ≤ g.z.length) :
    ∃ sig guess, make_signal_guess g = Except.ok sig ∧
      make_guess g = Except.ok guess ∧
      guess.length = g.input_powers.length ∧
      (∀ i, i < g.input_powers.length → (guess.getD i []).length = g.z.length) ∧
      (∀ k, k < g.slices.signal_slice.len →
        guess.getD (g.slices.signal_slice.start + k) [] = sig.getD k []) ∧
      (∀ k, k < g.slices.co_pump_slice.len →
        guess.getD (g.slices.co_pump_slice.start + k) [] =
          (make_co_pump_guess g).getD k []) ∧
      (∀ k, k < g.slices.counter_pump_slice.len →
        guess.getD (g.slices.counter_pump_slice.start + k) [] =
          (make_counter_pump_guess g).getD k []) ∧
      (∀ k, k < g.slices.forward_ase_slice.len →
        guess.getD (g.slices.forward_ase_slice.start + k) [] =
          (make_forward_ase_guess g).getD k []) ∧
      (∀ k, k < g.slices.backward_ase_slice.len →
        guess.getD (g.slices.backward_ase_slice.start + k) [] =
          (make_backward_ase_guess g).getD k []) ∧
      (∀ k, k < g.slices.forward_raman_slice.len →
        guess.getD (g.slices.forward_raman_slice.start + k) [] =
          (make_forward_raman_guess g).getD k []) ∧
      (∀ k, k < g.slices.backward_raman_slice.len →
        guess.getD (g.slices.backward_raman_slice.start + k) [] =
          (make_backward_raman_guess g).getD k []) := by
  obtain ⟨sig, hsig, hsiglen, hsigrows⟩ := make_signal_guess_ok g hshape
  refine ⟨sig, assembled g sig, hsig, make_guess_eq_ok g hsig,
    length_assembled g sig, ?_,
    fun k hk => assembled_row_signal g sig hpart hk,
    fun k hk => assembled_row_co_pump g sig hpart hk,
    fun k hk => assembled_row_counter_pump g sig hpart hk,
    fun k hk => assembled_row_forward_ase g sig hpart hk,
    fun k hk => assembled_row_backward_ase g sig hpart hk,
    fun k hk => assembled_row_forward_raman g sig hpart hk,
    fun k hk => assembled_row_backward_raman g sig hpart hk⟩
  intro i hi
  obtain ⟨h1, h2, h3, h4, h5, h6, h7, h8⟩ := id hpart
  rcases Nat.lt_or_ge i g.slices.co_pump_slice.start with hA | hA
  · have hkeq : i = g.slices.signal_slice.start + (i - g.slices.signal_slice.start) := by
      omega
    rw [hkeq, assembled_row_signal g sig hpart (by omega)]
    have hklt : i - g.slices.signal_slice.start < sig.length := by
      rw [hsiglen, signal_powers, length_applySlice_of_le (by omega)]; omega
    exact hsigrows _ (getD_mem_of_lt hklt)
  rcases Nat.lt_or_ge i g.slices.counter_pump_slice.start with hB | hB
  · have hkeq : i = g.slices.co_pump_slice.start + (i - g.slices.co_pump_slice.start) := by
      omega
    rw [hkeq, assembled_row_co_pump g sig hpart (by omega)]
    have hklt : i - g.slices.co_pump_slice.start < (make_co_pump_guess g).length := by
      rw [length_make_co_pump_guess, co_pump_powers, length_applySlice_of_le (by omega)]
      omega
    exact length_of_mem_linear_guess
      (by simpa [make_co_pump_guess] using getD_mem_of_lt hklt)
  rcases Nat.lt_or_ge i g.slices.forward_ase_slice.start with hC | hC
  · have hkeq : i = g.slices.counter_pump_slice.start +
        (i - g.slices.counter_pump_slice.start) := by omega
    rw [hkeq, assembled_row_counter_pump g sig hpart (by omega)]
    have hklt : i - g.slices.counter_pump_slice.start <
        (make_counter_pump_guess g).length := by
      rw [length_make_counter_pump_guess, counter_pump_powers,
        length_applySlice_of_le (by omega)]
      omega
    exact length_of_mem_linear_guess
      (by simpa [make_counter_pump_guess] using getD_mem_of_lt hklt)
  rcases Nat.lt_or_ge i g.slices.backward_ase_slice.start with hD | hD
  · have hkeq : i = g.slices.forward_ase_slice.start +
        (i - g.slices.forward_ase_slice.start) := by omega
    rw [hkeq, assembled_row_forward_ase g sig hpart (by omega)]
    have hklt : i - g.slices.forward_ase_slice.start <
        (make_forward_ase_guess g).length := by
      rw [length_make_forward_ase_guess, forward_ase_powers,
        length_applySlice_of_le (by omega)]
      omega
    exact length_of_mem_linear_guess
      (by simpa [make_forward_ase_guess] using getD_mem_of_lt hklt)
  rcases Nat.lt_or_ge i g.slices.forward_raman_slice.start with hE | hE
  · have hkeq : i = g.slices.backward_ase_slice.start +
        (i - g.slices.backward_ase_slice.start) := by omega
    rw [hkeq, assembled_row_backward_ase g sig hpart (by omega)]
    have hklt : i - g.slices.backward_ase_slice.start <
        (make_backward_ase_guess g).length := by
      rw [length_make_backward_ase_guess, backward_ase_powers,
        length_applySlice_of_le (by omega)]
      omega
    exact length_of_mem_linear_guess
      (by simpa [make_backward_ase_guess] using getD_mem_of_lt hklt)
  rcases Nat.lt_or_ge i g.slices.backward_raman_slice.start with hF | hF
  · have hkeq : i = g.slices.forward_raman_slice.start +
        (i - g.slices.forward_raman_slice.start) := by omega
    rw [hkeq, assembled_row_forward_raman g sig hpart (by omega)]
    have hklt : i - g.slices.forward_raman_slice.start <
        (make_forward_raman_guess g).length := by
      rw [length_make_forward_raman_guess, forward_raman_powers,
        length_applySlice_of_le (by omega)]
      omega
    exact length_of_mem_linear_guess
      (by simpa [make_forward_raman_guess] using getD_mem_of_lt hklt)
  · have hkeq : i = g.slices.backward_raman_slice.start +
        (i - g.slices.backward_raman_slice.start) := by omega
    rw [hkeq, assembled_row_backward_raman g sig hpart (by omega)]
    have hklt : i - g.slices.backward_raman_slice.start <
        (make_backward_raman_guess g).length := by
      rw [length_make_backward_raman_guess, backward_raman_powers,
        length_applySlice_of_le (by omega)]
      omega
    exact length_of_mem_linear_guess
      (by simpa [make_backward_raman_guess] using getD_mem_of_lt hklt)

/-- C6 (counterexample): with the default parameters, a configuration with one
zero-power signal channel and no pumps makes `make_guess` return the all-zero
row `[[0, 0]]`; its entries are not above any strictly positive floor. -/
theorem make_guess_zero_entry_counterexample :
    make_guess demoMakerZero = Except.ok [[0, 0]] ∧ ¬ (0 : ℝ) < 0 := by
  constructor
  · have hsig : make_signal_guess demoMakerZero = Except.ok [[0, 0]] := by
      simp [make_signal_guess, demoMakerZero, DEFAULT_GUESS_PARAMS, signal_powers,
        co_pump_powers, counter_pump_powers, applySlice, linear_guess, linspace_2d,
        linspaceRow, List.range_succ]
    rw [make_guess_eq_ok demoMakerZero hsig]
    simp [assembled, demoMakerZero, setRows, List.range_succ, make_co_pump_guess,
      make_counter_pump_guess, make_forward_ase_guess, make_backward_ase_guess,
      make_forward_raman_guess, make_backward_raman_guess, co_pump_powers,
      counter_pump_powers, forward_ase_powers, backward_ase_powers,
      forward_raman_powers, backward_raman_powers, applySlice, linear_guess,
      linspace_2d, linspaceRow]
  · exact lt_irrefl 0

set_option maxHeartbeats 1600000 in
/-- C6 (amended): under the default parameters, for any slice map partitioning
the channels and any non-negative input powers, every entry of the guess
`make_guess` returns is non-negative; entries can be exactly zero (see the
counterexample), so `≥ 0` — not a strictly positive floor — is the invariant
the initial guess satisfies. -/
theorem make_guess_entries_nonneg (g : InitialGuessMaker)
    (hpart : g.slices.partitions g.input_powers.length)
    (hpow : ∀ p ∈ g.input_powers, 0 ≤ p)
    (hparams : g.params = DEFAULT_GUESS_PARAMS) :
    ∀ guess, make_guess g = Except.ok guess → ∀ row ∈ guess, ∀ x ∈ row, 0 ≤ x := by
  have hshape : g.params.signal_gain_shape = "linear" := by rw [hparams]; rfl
  have hconv : 0 ≤ g.params.signal_conversion_guess := by
    rw [hparams]; norm_num [DEFAULT_GUESS_PARAMS]
  have hfac : 0 ≤ g.params.pump_absorption_factor := by
    rw [hparams]; norm_num [DEFAULT_GUESS_PARAMS]
  have hase : 0 ≤ g.params.ase_output_power := by
    rw [hparams]; norm_num [DEFAULT_GUESS_PARAMS]
  have hsig : make_signal_guess g = Except.ok
      (linear_guess g (signal_powers g) ((signal_powers g).map fun p =>
        g.params.signal_conversion_guess *
          ((co_pump_powers g).sum + (counter_pump_powers g).sum) + p)) := by
    simp [make_signal_guess, hshape]
  intro guess hg row hrow x hx
  have hge := make_guess_eq_ok g hsig
  rw [hg, Except.ok.injEq] at hge
  rw [hge] at hrow
  rw [List.mem_iff_getElem] at hrow
  obtain ⟨i, hi0, hrowEq⟩ := hrow
  have hi : i < g.input_powers.length := by
    rw [length_assembled] at hi0; exact hi0
  have hrow2 : row = (assembled g (linear_guess g (signal_powers g)
      ((signal_powers g).map fun p => g.params.signal_conversion_guess *
        ((co_pump_powers g).sum + (counter_pump_powers g).sum) + p))).getD i [] := by
    rw [List.getD_eq_getElem _ _ hi0, hrowEq]
  obtain ⟨h1, h2, h3, h4, h5, h6, h7, h8⟩ := id hpart
  rcases Nat.lt_or_ge i g.slices.co_pump_slice.start with hA | hA
  · rw [show i = g.slices.signal_slice.start + (i - g.slices.signal_slice.start)
        from by omega, assembled_row_signal g _ hpart (by omega)] at hrow2
    have hklt : i - g.slices.signal_slice.start <
        (linear_guess g (signal_powers g) ((signal_powers g).map fun p =>
          g.params.signal_conversion_guess *
            ((co_pump_powers g).sum + (counter_pump_powers g).sum) + p)).length := by
      simp only [linear_guess, length_linspace_2d, List.length_map, min_self]
      rw [signal_powers, length_applySlice_of_le (by omega)]
      omega
    exact nonneg_mem_signal_linear_guess g hpow hconv row
      (hrow2 ▸ getD_mem_of_lt hklt) x hx
  rcases Nat.lt_or_ge i g.slices.counter_pump_slice.start with hB | hB
  · rw [show i = g.slices.co_pump_slice.start + (i - g.slices.co_pump_slice.start)
        from by omega, assembled_row_co_pump g _ hpart (by omega)] at hrow2
    have hklt : i - g.slices.co_pump_slice.start < (make_co_pump_guess g).length := by
      rw [length_make_co_pump_guess, co_pump_powers, length_applySlice_of_le (by omega)]
      omega
    exact nonneg_mem_make_co_pump_guess g hpow hfac row
      (hrow2 ▸ getD_mem_of_lt hklt) x hx
  rcases Nat.lt_or_ge i g.slices.forward_ase_slice.start with hC | hC
  · rw [show i = g.slices.counter_pump_slice.start +
        (i - g.slices.counter_pump_slice.start) from by omega,
      assembled_row_counter_pump g _ hpart (by omega)] at hrow2
    have hklt : i - g.slices.counter_pump_slice.start <
        (make_counter_pump_guess g).length := by
      rw [length_make_counter_pump_guess, counter_pump_powers,
        length_applySlice_of_le (by omega)]
      omega
    exact nonneg_mem_make_counter_pump_guess g hpow hfac row
      (hrow2 ▸ getD_mem_of_lt hklt) x hx
  rcases Nat.lt_or_ge i g.slices.backward_ase_slice.start with hD | hD
  · rw [show i = g.slices.forward_ase_slice.start +
        (i - g.slices.forward_ase_slice.start) from by omega,
      assembled_row_forward_ase g _ hpart (by omega)] at hrow2
    have hklt : i - g.slices.forward_ase_slice.start <
        (make_forward_ase_guess g).length := by
      rw [length_make_forward_ase_guess, forward_ase_powers,
        length_applySlice_of_le (by omega)]
      omega
    exact nonneg_mem_make_forward_ase_guess g hpow hase row
      (hrow2 ▸ getD_mem_of_lt hklt) x hx
  rcases Nat.lt_or_ge i g.slices.forward_raman_slice.start with hE | hE
  · rw [show i = g.slices.backward_ase_slice.start +
        (i - g.slices.backward_ase_slice.start) from by omega,
      assembled_row_backward_ase g _ hpart (by omega)] at hrow2
    have hklt : i - g.slices.backward_ase_slice.start <
        (make_backward_ase_guess g).length := by
      rw [length_make_backward_ase_guess, backward_ase_powers,
        length_applySlice_of_le (by omega)]
      omega
    exact nonneg_mem_make_backward_ase_guess g hpow hase row
      (hrow2 ▸ getD_mem_of_lt hklt) x hx
  rcases Nat.lt_or_ge i g.slices.backward_raman_slice.start with hF | hF
  · rw [show i = g.slices.forward_raman_slice.start +
        (i - g.slices.forward_raman_slice.start) from by omega,
      assembled_row_forward_raman g _ hpart (by omega)] at hrow2
    have hklt : i - g.slices.forward_raman_slice.start <
        (make_forward_raman_guess g).length := by
      rw [length_make_forward_raman_guess, forward_raman_powers,
        length_applySlice_of_le (by omega)]
      omega
    exact nonneg_mem_make_forward_raman_guess g hpow row
      (hrow2 ▸ getD_mem_of_lt hklt) x hx
  · rw [show i = g.slices.backward_raman_slice.start +
        (i - g.slices.backward_raman_slice.start) from by omega,
      assembled_row_backward_raman g _ hpart (by omega)] at hrow2
    have hklt : i - g.slices.backward_raman_slice.start <
        (make_backward_raman_guess g).length := by
      rw [length_make_backward_raman_guess, backward_raman_powers,
        length_applySlice_of_le (by omega)]
      omega
    exact nonneg_mem_make_backward_raman_guess g hpow row
      (hrow2 ▸ getD_mem_of_lt hklt) x hx

end InitialGuessMaker

namespace ActiveFiber

/-- C7: `get_mfd` returns the preset mode-field diameter when it is positive,
and otherwise falls back to the Petermann-II fundamental-mode MFD derived from
the core radius and numerical aperture. -/
theorem get_mfd_preset_or_petermann (af : ActiveFiber) (freq preset_mfd : ℝ) :
    (0 < preset_mfd → af.get_mfd freq preset_mfd = preset_mfd) ∧
    (preset_mfd ≤ 0 → af.get_mfd freq preset_mfd =
      fundamental_mode_mfd_petermann_2 (freq_to_wl freq) af.core_r af.core_na) := by
  constructor
  · intro h
    simp [get_mfd, h]
  · intro h
    simp [get_mfd, not_lt.mpr h]

/-- C8: with `effective_area_type = 'bessel'`, `nonlinear_effective_area`
fails with the not-implemented error for every frequency and never returns an
approximated value. -/
theorem nonlinear_effective_area_bessel_error (af : ActiveFiber)
    (htype : af.effective_area_type = "bessel") (freq : ℝ) :
    af.nonlinear_effective_area freq = Except.error "NotImplementedError" := by
  simp [nonlinear_effective_area, htype, effective_area_from_bessel_distribution,
    Except.map]

/-- C9: for any `effective_area_type` outside {'core_area', 'gaussian',
'bessel'}, `nonlinear_effective_area` falls through the string dispatch
without raising and returns no value (Python's implicit `None`). -/
theorem nonlinear_effective_area_unknown_none (af : ActiveFiber)
    (h1 : af.effective_area_type ≠ "core_area")
    (h2 : af.effective_area_type ≠ "gaussian")
    (h3 : af.effective_area_type ≠ "bessel") (freq : ℝ) :
    af.nonlinear_effective_area freq = Except.ok none := by
  simp [nonlinear_effective_area, h1, h2, h3]

/-- C10: `finite_bandwidth_gain` is the arithmetic mean of `get_channel_gain`
at the two band-edge frequencies `center ± bandwidth/2`, and
`finite_bandwidth_absorption` is the analogous mean of
`get_channel_absorption` — the band is represented by its edge values only. -/
theorem finite_bandwidth_edge_mean (af : ActiveFiber) (fc B r ga gb pa pb : ℝ)
    (hg1 : af.get_channel_gain (fc - B / 2) r = some ga)
    (hg2 : af.get_channel_gain (fc + B / 2) r = some gb)
    (ha1 : af.get_channel_absorption (fc - B / 2) r = some pa)
    (ha2 : af.get_channel_absorption (fc + B / 2) r = some pb) :
    af.finite_bandwidth_gain fc B r = some ((ga + gb) / 2) ∧
      af.finite_bandwidth_absorption fc B r = some ((pa + pb) / 2) := by
  constructor
  · simp [finite_bandwidth_gain, hg1, hg2]
  · simp [finite_bandwidth_absorption, ha1, ha2]

end ActiveFiber

/-! ### Witnesses: the claim theorems applied at concrete inputs -/

namespace InitialGuessMaker

/-- C1 witness at `demoMaker`, signal channel 0. -/
theorem make_signal_guess_start_end_witness :
    (demoMaker.params.signal_gain_shape = "linear" →
      ∃ rows, make_signal_guess demoMaker = Except.ok rows ∧
        rows.length = (signal_powers demoMaker).length ∧
        (rows.getD 0 []).getD 0 0 = (signal_powers demoMaker).getD 0 0 ∧
        (rows.getD 0 []).getD (demoMaker.z.length - 1) 0 =
          (signal_powers demoMaker).getD 0 0 +
            demoMaker.params.signal_conversion_guess *
              ((co_pump_powers demoMaker).sum +
                (counter_pump_powers demoMaker).sum)) ∧
    (demoMaker.params.signal_gain_shape = "exponential" →
      make_signal_guess demoMaker = Except.ok (exponential_guess demoMaker
        (signal_powers demoMaker) ((signal_powers demoMaker).map fun p =>
          demoMaker.params.signal_conversion_guess *
            ((co_pump_powers demoMaker).sum +
              (counter_pump_powers demoMaker).sum) + p))) :=
  make_signal_guess_start_end demoMaker (by decide) 0 (by decide)

/-- C2 witness at `demoMakerBadShape` (shape `'cubic'`). -/
theorem make_signal_guess_invalid_shape_witness :
    make_signal_guess demoMakerBadShape =
        Except.error "Unrecognized signal gain shape parameter." ∧
      make_guess demoMakerBadShape =
        Except.error "Unrecognized signal gain shape parameter." :=
  make_signal_guess_invalid_shape demoMakerBadShape (by decide) (by decide)

/-- C3 witness at `demoMaker` (3 channels, 3 grid points). -/
theorem make_guess_shape_placement_witness :
    ∃ sig guess, make_signal_guess demoMaker = Except.ok sig ∧
      make_guess demoMaker = Except.ok guess ∧
      guess.length = demoMaker.input_powers.length ∧
      (∀ i, i < demoMaker.input_powers.length →
        (guess.getD i []).length = demoMaker.z.length) ∧
      (∀ k, k < demoMaker.slices.signal_slice.len →
        guess.getD (demoMaker.slices.signal_slice.start + k) [] = sig.getD k []) ∧
      (∀ k, k < demoMaker.slices.co_pump_slice.len →
        guess.getD (demoMaker.slices.co_pump_slice.start + k) [] =
          (make_co_pump_guess demoMaker).getD k []) ∧
      (∀ k, k < demoMaker.slices.counter_pump_slice.len →
        guess.getD (demoMaker.slices.counter_pump_slice.start + k) [] =
          (make_counter_pump_guess demoMaker).getD k []) ∧
      (∀ k, k < demoMaker.slices.forward_ase_slice.len →
        guess.getD (demoMaker.slices.forward_ase_slice.start + k) [] =
          (make_forward_ase_guess demoMaker).getD k []) ∧
      (∀ k, k < demoMaker.slices.backward_ase_slice.len →
        guess.getD (demoMaker.slices.backward_ase_slice.start + k) [] =
          (make_backward_ase_guess demoMaker).getD k []) ∧
      (∀ k, k < demoMaker.slices.forward_raman_slice.len →
        guess.getD (demoMaker.slices.forward_raman_slice.start + k) [] =
          (make_forward_raman_guess demoMaker).getD k []) ∧
      (∀ k, k < demoMaker.slices.backward_raman_slice.len →
        guess.getD (demoMaker.slices.backward_raman_slice.start + k) [] =
          (make_backward_raman_guess demoMaker).getD k []) :=
  make_guess_shape_placement demoMaker (by decide) (Or.inl rfl) (by decide) (by decide)

/-- C4 witness: start 1, end e over the grid `[0, 0.5, 1]` of `demoMaker`. -/
theorem exponential_guess_endpoints_witness :
    (∀ j, j < demoMaker.z.length →
      ((exponential_guess demoMaker [(1 : ℝ)] [Real.exp 1]).getD 0 []).getD j 0 =
        [(1 : ℝ)].getD 0 0 *
          Real.exp (Real.log ([Real.exp 1].getD 0 0 / [(1 : ℝ)].getD 0 0) /
            demoMaker.z.getLastD 0 * demoMaker.z.getD j 0)) ∧
    ((exponential_guess demoMaker [(1 : ℝ)] [Real.exp 1]).getD 0 []).getD 0 0 =
      [(1 : ℝ)].getD 0 0 ∧
    ((exponential_guess demoMaker [(1 : ℝ)] [Real.exp 1]).getD 0 []).getD
        (demoMaker.z.length - 1) 0 = [Real.exp 1].getD 0 0 :=
  exponential_guess_endpoints demoMaker [(1 : ℝ)] [Real.exp 1] 0 (by decide)
    (by decide) (by norm_num) (by simpa using Real.exp_pos 1) (by decide) rfl
    (by norm_num [demoMaker])

/-- C5 witness at `demoMaker`. -/
theorem counter_pump_guess_mirrored_witness :
    (∀ i, i < (counter_pump_powers demoMaker).length →
      ((make_counter_pump_guess demoMaker).getD i []).getD 0 0 =
          demoMaker.params.pump_absorption_factor *
            (counter_pump_powers demoMaker).getD i 0 ∧
        ((make_counter_pump_guess demoMaker).getD i []).getD
            (demoMaker.z.length - 1) 0 = (counter_pump_powers demoMaker).getD i 0) ∧
    (∀ i, i < (co_pump_powers demoMaker).length →
      ((make_co_pump_guess demoMaker).getD i []).getD 0 0 =
          (co_pump_powers demoMaker).getD i 0 ∧
        ((make_co_pump_guess demoMaker).getD i []).getD (demoMaker.z.length - 1) 0 =
          demoMaker.params.pump_absorption_factor *
            (co_pump_powers demoMaker).getD i 0) :=
  counter_pump_guess_mirrored demoMaker (by decide)

/-- C6 (amended) witness: the amended theorem applied at `demoMakerZero`,
whose guess is `[[0, 0]]`, at the entry in row 0, column 0. -/
theorem make_guess_entries_nonneg_witness : (0 : ℝ) ≤ 0 :=
  make_guess_entries_nonneg demoMakerZero (by decide)
    (by
      intro p hp
      simp only [demoMakerZero, List.mem_cons, List.not_mem_nil, or_false] at hp
      rcases hp with rfl
      norm_num)
    rfl [[0, 0]]
    (by
      have hsig : make_signal_guess demoMakerZero = Except.ok [[0, 0]] := by
        simp [make_signal_guess, demoMakerZero, DEFAULT_GUESS_PARAMS, signal_powers,
          co_pump_powers, counter_pump_powers, applySlice, linear_guess, linspace_2d,
          linspaceRow, List.range_succ]
      rw [make_guess_eq_ok demoMakerZero hsig]
      simp [assembled, demoMakerZero, setRows, List.range_succ, make_co_pump_guess,
        make_counter_pump_guess, make_forward_ase_guess, make_backward_ase_guess,
        make_forward_raman_guess, make_backward_raman_guess, co_pump_powers,
        counter_pump_powers, forward_ase_powers, backward_ase_powers,
        forward_raman_powers, backward_raman_powers, applySlice, linear_guess,
        linspace_2d, linspaceRow])
    [0, 0] (by simp) 0 (by simp)

end InitialGuessMaker

namespace ActiveFiber

/-- C7 witness: preset 2 m is returned; preset 0 falls back to Petermann-II. -/
theorem get_mfd_preset_or_petermann_witness :
    demoFiberBessel.get_mfd 1 2 = 2 ∧
      demoFiberBessel.get_mfd 1 0 =
        fundamental_mode_mfd_petermann_2 (freq_to_wl 1) demoFiberBessel.core_r
          demoFiberBessel.core_na :=
  ⟨(get_mfd_preset_or_petermann demoFiberBessel 1 2).1 (by norm_num),
    (get_mfd_preset_or_petermann demoFiberBessel 1 0).2 le_rfl⟩

/-- C8 witness at `demoFiberBessel`. -/
theorem nonlinear_effective_area_bessel_error_witness :
    demoFiberBessel.nonlinear_effective_area 1 =
      Except.error "NotImplementedError" :=
  nonlinear_effective_area_bessel_error demoFiberBessel rfl 1

/-- C9 witness at `demoFiberUnknown` (type `'triangle'`). -/
theorem nonlinear_effective_area_unknown_none_witness :
    demoFiberUnknown.nonlinear_effective_area 1 = Except.ok none :=
  nonlinear_effective_area_unknown_none demoFiberUnknown (by decide) (by decide)
    (by decide) 1

/-- C10 witness at `demoFiberBessel` (constant interpolants 2 and 3). -/
theorem finite_bandwidth_edge_mean_witness :
    demoFiberBessel.finite_bandwidth_gain 5 2 1 = some ((2 + 2) / 2) ∧
      demoFiberBessel.finite_bandwidth_absorption 5 2 1 = some ((3 + 3) / 2) :=
  finite_bandwidth_edge_mean demoFiberBessel 5 2 1 2 2 3 3
    (by simp [get_channel_gain, make_single_overlap, overlap_is_constant,
      demoFiberBessel])
    (by simp [get_channel_gain, make_single_overlap, overlap_is_constant,
      demoFiberBessel])
    (by simp [get_channel_absorption, make_single_overlap, overlap_is_constant,
      demoFiberBessel])
    (by simp [get_channel_absorption, make_single_overlap, overlap_is_constant,
      demoFiberBessel])

end ActiveFiber

end Fiberamp
